import Mathlib

/-!
# Verification of the NetTool interactive network visualizer

Shallow embedding of `src/app.py`: a Dash application that renders a random
Erdős–Rényi graph with community-colored nodes and, on a node click, the
induced closed-neighborhood subgraph.  External collaborators (the igraph
library routines, the force-directed layout engine, the random source) are
modelled as explicit oracles or from the spec's contracts, as noted on each
definition.
-/

/-- 2D coordinates of a laid-out node (the figure only carries them through,
so the numeric type is immaterial; the layout engine is an oracle). -/
abbrev Point := Int × Int

/-- An igraph-style graph: vertices `0..n-1`, an edge list of index pairs
(undirected, each edge stored once), and the `name` vertex attribute. -/
structure Graph where
  n : Nat
  edges : List (Nat × Nat)
  names : List String
deriving DecidableEq, Repr

/-- `u` and `v` share an edge (in either stored orientation). -/
def Adj (g : Graph) (u v : Nat) : Prop :=
  (u, v) ∈ g.edges ∨ (v, u) ∈ g.edges

instance (g : Graph) (u v : Nat) : Decidable (Adj g u v) := by
  unfold Adj; infer_instance

/-- Modelled from the spec: igraph `g.degree()` entry for vertex `v` — the
number of incident edge endpoints, so a self-loop contributes twice. -/
def degree (g : Graph) (v : Nat) : Nat :=
  (g.edges.filter (fun e => decide (e.1 = v))).length +
    (g.edges.filter (fun e => decide (e.2 = v))).length

/-- Modelled from the spec: igraph `g.neighborhood(v)` (order 1) — the closed
1-hop neighborhood `{v} ∪ {w : edge(v,w) exists}`, the vertex itself first,
each vertex once; an out-of-range vertex id is an error (`none`). -/
def neighborhood (g : Graph) (v : Nat) : Option (List Nat) :=
  if v < g.n then
    some (v :: (List.range g.n).filter (fun w => decide (w ≠ v ∧ Adj g v w)))
  else
    none

/-- Modelled from the spec: igraph `g.subgraph(vs)` — the subgraph induced by
the vertex list `vs`: vertices relabelled `0..|vs|-1` in list order, exactly
the original edges with both endpoints in `vs`, vertex attributes carried
over. -/
def inducedSubgraph (g : Graph) (vs : List Nat) : Graph where
  n := vs.length
  edges := (g.edges.filter (fun e => decide (e.1 ∈ vs ∧ e.2 ∈ vs))).map
    (fun e => (vs.indexOf e.1, vs.indexOf e.2))
  names := vs.map (fun v => g.names.getD v "")

/-- All unordered vertex pairs of an `n`-vertex graph (no loops). -/
def allPairs (n : Nat) : List (Nat × Nat) :=
  (List.range n).flatMap (fun i => (List.range i).map (fun j => (j, i)))

/-- Modelled from the spec: `ig.Graph.Erdos_Renyi(n, m, directed=False)` —
the G(n,m) model draws `m` distinct non-loop edges uniformly from all vertex
pairs; the random choice is modelled by the oracle `sel`, a random ordering
of the candidate pairs of which the first `m` are taken. -/
def erdosRenyi (n m : Nat) (sel : List (Nat × Nat)) : Graph where
  n := n
  edges := sel.take m
  names := []

/-- `create_graph` from `app.py`: sample a 50-node, 100-edge random graph,
attach the names `"Node-0" .. "Node-49"`, and compute a Fruchterman–Reingold
layout (the layout engine is the oracle `lay`). -/
def create_graph (sel : List (Nat × Nat)) (lay : Graph → List Point) :
    Graph × List Point :=
  let g0 := erdosRenyi 50 100 sel
  let node_names := (List.range 50).map (fun i => "Node-" ++ toString i)
  let g : Graph := { g0 with names := node_names }
  (g, lay g)

/-- One plotly scatter trace, restricted to the fields `app.py` sets.  Edge
traces interleave `none` separators in `x`/`y`; the marker color of node `i`
is a Python dict lookup, hence an `Option`. -/
structure Trace where
  x : List (Option Int)
  y : List (Option Int)
  mode : String
  text : List String
  markerColor : List (Option String)
  customdata : List Nat
deriving DecidableEq, Repr

/-- Axis options set by `app.py` (`showgrid`, `zeroline`, `showticklabels`). -/
structure AxisConfig where
  showgrid : Bool
  zeroline : Bool
  showticklabels : Bool
deriving DecidableEq, Repr

/-- Figure-level layout options set by `app.py`. -/
structure LayoutConfig where
  showlegend : Bool
  hovermode : String
  xaxis : AxisConfig
  yaxis : AxisConfig
deriving DecidableEq, Repr

/-- A plotly figure: an ordered list of traces plus layout options. -/
structure Figure where
  data : List Trace
  layout : LayoutConfig
deriving DecidableEq, Repr

/-- `create_empty_figure` from `app.py`: no traces, legend off, closest-point
hover, all grid/zero-line/tick decorations hidden on both axes. -/
def create_empty_figure : Figure where
  data := []
  layout :=
    { showlegend := false
      hovermode := "closest"
      xaxis := { showgrid := false, zeroline := false, showticklabels := false }
      yaxis := { showgrid := false, zeroline := false, showticklabels := false } }

/-- One lowercase hexadecimal digit. -/
def hexDigit (n : Nat) : Char :=
  if n < 10 then Char.ofNat (48 + n) else Char.ofNat (87 + n)

/-- Two-digit lowercase hex rendering of a byte (`"{:02x}".format`). -/
def hex2 (n : Nat) : String :=
  String.mk [hexDigit (n / 16 % 16), hexDigit (n % 16)]

/-- `"#{:02x}{:02x}{:02x}".format(r, g, b)` from `app.py`. -/
def hexColor (r g b : Nat) : String :=
  "#" ++ hex2 r ++ hex2 g ++ hex2 b

/-- The color drawn for the community at index `idx`: three consecutive
`random.randint(0, 255)` draws from the random stream `rnd` (modelled as an
infinite stream of bytes, reduced mod 256). -/
def randColor (rnd : Nat → Nat) (idx : Nat) : String :=
  hexColor (rnd (3 * idx) % 256) (rnd (3 * idx + 1) % 256) (rnd (3 * idx + 2) % 256)

/-- Inner loop of the color assignment: `for node in nodes:
community_colors[node] = color` — each vertex of the community is mapped to
the community's color, later writes overwriting earlier ones. -/
def assignAll (c : String) : List Nat → (Nat → Option String) → Nat → Option String
  | [], acc => acc
  | node :: rest, acc => assignAll c rest (fun v => if v = node then some c else acc v)

/-- Outer loop of the color assignment: `for idx, nodes in
enumerate(communities)` — community `idx` draws one fresh random color and
writes it for all its members. -/
def communityColorsFrom (rnd : Nat → Nat) (idx : Nat) :
    List (List Nat) → (Nat → Option String) → Nat → Option String
  | [], acc => acc
  | nodes :: rest, acc =>
      communityColorsFrom rnd (idx + 1) rest (assignAll (randColor rnd idx) nodes acc)

/-- The `community_colors` dict of `create_network_figure`, as a lookup
function (Python dict lookup: `none` models a `KeyError`). -/
def communityColors (rnd : Nat → Nat) (comm : List (List Nat)) : Nat → Option String :=
  communityColorsFrom rnd 0 comm (fun _ => none)

/-- `create_network_figure(g, layout)` from `app.py`.  The community
structure returned by `g.community_multilevel()` is the oracle `comm` (a list
of communities, each a list of vertex ids); the random source behind
`random.randint` is the oracle `rnd`.  Nodes are emitted in vertex order;
each edge contributes a 2-point segment followed by a `none` separator. -/
def create_network_figure (g : Graph) (layout : List Point)
    (comm : List (List Nat)) (rnd : Nat → Nat) : Figure :=
  let Xn := layout.map (fun p => p.1)
  let Yn := layout.map (fun p => p.2)
  let community_colors := communityColors rnd comm
  let node_degrees := (List.range g.n).map (degree g)
  let node_trace : Trace :=
    { x := Xn.map some
      y := Yn.map some
      mode := "markers+text"
      text := g.names
      markerColor := (List.range g.n).map community_colors
      customdata := node_degrees }
  let edge_x := g.edges.flatMap (fun e =>
    [some (layout.getD e.1 (0, 0)).1, some (layout.getD e.2 (0, 0)).1, none])
  let edge_y := g.edges.flatMap (fun e =>
    [some (layout.getD e.1 (0, 0)).2, some (layout.getD e.2 (0, 0)).2, none])
  let edge_trace : Trace :=
    { x := edge_x
      y := edge_y
      mode := "lines"
      text := []
      markerColor := []
      customdata := [] }
  { data := [edge_trace, node_trace]
    layout :=
      { showlegend := false
        hovermode := "closest"
        xaxis := { showgrid := false, zeroline := false, showticklabels := false }
        yaxis := { showgrid := false, zeroline := false, showticklabels := false } }
  }

/-- The session state of the app: the global `original_graph` and `layout`
created once at startup. -/
structure Session where
  graph : Graph
  layout : List Point
deriving DecidableEq, Repr

/-- Failure kinds of a render request (spec §7): a click index outside the
session graph's vertex range is `InvalidSelection`. -/
inductive RenderError where
  | InvalidSelection
deriving DecidableEq, Repr

/-- `update_subgraph_plot(clickData)` from `app.py`, with the session state
threaded explicitly to expose its (absence of) mutation.  `clickData` is the
extracted `pointIndex` of the clicked node, or `none` when no node was
clicked; `lay` and `comm` are the layout-engine and community-detection
oracles for the derived subgraph, `rnd` the random source. -/
def update_subgraph_plot (s : Session) (clickData : Option Nat)
    (lay : Graph → List Point) (comm : Graph → List (List Nat))
    (rnd : Nat → Nat) : Except RenderError Figure × Session :=
  match clickData with
  | none => (Except.ok create_empty_figure, s)
  | some clicked_node_index =>
      match neighborhood s.graph clicked_node_index with
      | none => (Except.error RenderError.InvalidSelection, s)
      | some neighbors =>
          let subgraph := inducedSubgraph s.graph neighbors
          let subgraph_layout := lay subgraph
          (Except.ok (create_network_figure subgraph subgraph_layout (comm subgraph) rnd), s)

/-- `update_original_network_plot(relayoutData)` from `app.py`: ignores its
triggering event's payload and re-renders the full session graph, with a
fresh community-detection pass (`comm`) and fresh random colors (`rnd`). -/
def update_original_network_plot (s : Session) (_relayoutData : Option Unit)
    (comm : List (List Nat)) (rnd : Nat → Nat) : Figure × Session :=
  (create_network_figure s.graph s.layout comm rnd, s)

/-- The claim's count of edges incident to `v`, self-loops counted twice:
edges touching `v` plus (again) the self-loops at `v`. -/
def incidentCount (g : Graph) (v : Nat) : Nat :=
  (g.edges.filter (fun e => decide (e.1 = v ∨ e.2 = v))).length +
    (g.edges.filter (fun e => decide (e.1 = v ∧ e.2 = v))).length

/-- `u` and `v` lie in one community of the partition `comm`. -/
def SameCommunity (comm : List (List Nat)) (u v : Nat) : Prop :=
  ∃ j, ∃ h : j < comm.length, u ∈ comm.get ⟨j, h⟩ ∧ v ∈ comm.get ⟨j, h⟩

/-- `comm` is a valid community assignment for vertices `0..n-1`: every
vertex lies in exactly one community (spec §4.3: detection is a partition). -/
def IsPartitionOn (comm : List (List Nat)) (n : Nat) : Prop :=
  ∀ v, v < n → ∃ j, ∃ h : j < comm.length, v ∈ comm.get ⟨j, h⟩ ∧
    ∀ j', ∀ h' : j' < comm.length, v ∈ comm.get ⟨j', h'⟩ → j' = j

/-- C3: a click handler call with an absent click event returns the empty
figure — no data traces, legend disabled, grid, zero-lines and tick labels
hidden on both axes — and this deterministically, whatever the session and
the oracles. -/
theorem click_none_returns_empty_figure (s : Session)
    (lay : Graph → List Point) (comm : Graph → List (List Nat)) (rnd : Nat → Nat) :
    update_subgraph_plot s none lay comm rnd =
      (Except.ok create_empty_figure, s) ∧
    create_empty_figure.data = [] ∧
    create_empty_figure.layout.showlegend = false ∧
    create_empty_figure.layout.xaxis =
      { showgrid := false, zeroline := false, showticklabels := false } ∧
    create_empty_figure.layout.yaxis =
      { showgrid := false, zeroline := false, showticklabels := false } := by
  refine ⟨rfl, rfl, rfl, rfl, rfl⟩

/-- C7: a click on an index outside `[0, n)` of the session graph makes the
whole render request fail with `InvalidSelection`, and the session (graph
and stored layout) is returned unchanged. -/
theorem click_out_of_range_fails (s : Session) (k : Nat)
    (lay : Graph → List Point) (comm : Graph → List (List Nat)) (rnd : Nat → Nat)
    (hk : s.graph.n ≤ k) :
    update_subgraph_plot s (some k) lay comm rnd =
      (Except.error RenderError.InvalidSelection, s) := by
  have h : neighborhood s.graph k = none := by
    unfold neighborhood; rw [if_neg (by omega)]
  simp [update_subgraph_plot, h]

/-- Witness for C7 at a concrete session and index. -/
theorem click_out_of_range_fails_witness :
    update_subgraph_plot
        ⟨⟨2, [(0, 1)], ["Node-0", "Node-1"]⟩, [(0, 0), (1, 1)]⟩ (some 5)
        (fun _ => []) (fun _ => []) (fun _ => 0) =
      (Except.error RenderError.InvalidSelection,
        ⟨⟨2, [(0, 1)], ["Node-0", "Node-1"]⟩, [(0, 0), (1, 1)]⟩) :=
  click_out_of_range_fails _ 5 _ _ _ (by decide)

/-- C8: handling a node-click event never mutates the session: for every
click payload (absent, valid or invalid index) the session component of the
handler's result — the graph with its node set, edge list and name
attributes, and the stored full-graph layout — is exactly the input
session. -/
theorem click_handler_preserves_session (s : Session) (clickData : Option Nat)
    (lay : Graph → List Point) (comm : Graph → List (List Nat)) (rnd : Nat → Nat) :
    (update_subgraph_plot s clickData lay comm rnd).2 = s := by
  cases clickData with
  | none => rfl
  | some k =>
      cases h : neighborhood s.graph k with
      | none => simp [update_subgraph_plot, h]
      | some ns => simp [update_subgraph_plot, h]

/-! ## Helper lemmas -/

/-- Looking up an element's own index recovers the element. -/
theorem getD_indexOf {l : List Nat} {a : Nat} (h : a ∈ l) (d : Nat) :
    l.getD (l.indexOf a) d = a := by
  rw [List.getD_eq_getElem?_getD, List.getElem?_indexOf h]
  rfl

/-- `getD` through `map` over `range`. -/
theorem getD_map_range {α : Type} (f : Nat → α) (n i : Nat) (hi : i < n) (d : α) :
    ((List.range n).map f).getD i d = f i := by
  rw [List.getD_eq_getElem?_getD, List.getElem?_map, List.getElem?_range hi]
  rfl

/-- The length of a filtered list grows by one exactly when the head passes
the predicate. -/
theorem length_filter_cons_pos {α : Type} (p : α → Bool) (a : α) (l : List α)
    (h : p a = true) :
    ((a :: l).filter p).length = (l.filter p).length + 1 := by
  simp [List.filter_cons, h]

/-- The length of a filtered list is unchanged when the head fails the
predicate. -/
theorem length_filter_cons_neg {α : Type} (p : α → Bool) (a : α) (l : List α)
    (h : p a = false) :
    ((a :: l).filter p).length = (l.filter p).length := by
  simp [List.filter_cons, h]

/-- Splitting incidence counts: counting `e.1 = v` and `e.2 = v` separately
equals counting incident edges plus self-loops. -/
theorem count_split_incident (l : List (Nat × Nat)) (v : Nat) :
    (l.filter (fun e => decide (e.1 = v))).length +
        (l.filter (fun e => decide (e.2 = v))).length =
      (l.filter (fun e => decide (e.1 = v ∨ e.2 = v))).length +
        (l.filter (fun e => decide (e.1 = v ∧ e.2 = v))).length := by
  induction l with
  | nil => rfl
  | cons e rest ih =>
      by_cases h1 : e.1 = v <;> by_cases h2 : e.2 = v
      · rw [length_filter_cons_pos (fun e => decide (e.1 = v)) e rest (decide_eq_true h1),
          length_filter_cons_pos (fun e => decide (e.2 = v)) e rest (decide_eq_true h2),
          length_filter_cons_pos (fun e => decide (e.1 = v ∨ e.2 = v)) e rest
            (decide_eq_true (Or.inl h1)),
          length_filter_cons_pos (fun e => decide (e.1 = v ∧ e.2 = v)) e rest
            (decide_eq_true ⟨h1, h2⟩)]
        omega
      · rw [length_filter_cons_pos (fun e => decide (e.1 = v)) e rest (decide_eq_true h1),
          length_filter_cons_neg (fun e => decide (e.2 = v)) e rest (decide_eq_false h2),
          length_filter_cons_pos (fun e => decide (e.1 = v ∨ e.2 = v)) e rest
            (decide_eq_true (Or.inl h1)),
          length_filter_cons_neg (fun e => decide (e.1 = v ∧ e.2 = v)) e rest
            (decide_eq_false (fun hc => h2 hc.2))]
        omega
      · rw [length_filter_cons_neg (fun e => decide (e.1 = v)) e rest (decide_eq_false h1),
          length_filter_cons_pos (fun e => decide (e.2 = v)) e rest (decide_eq_true h2),
          length_filter_cons_pos (fun e => decide (e.1 = v ∨ e.2 = v)) e rest
            (decide_eq_true (Or.inr h2)),
          length_filter_cons_neg (fun e => decide (e.1 = v ∧ e.2 = v)) e rest
            (decide_eq_false (fun hc => h1 hc.1))]
        omega
      · rw [length_filter_cons_neg (fun e => decide (e.1 = v)) e rest (decide_eq_false h1),
          length_filter_cons_neg (fun e => decide (e.2 = v)) e rest (decide_eq_false h2),
          length_filter_cons_neg (fun e => decide (e.1 = v ∨ e.2 = v)) e rest
            (decide_eq_false (fun hc => hc.elim h1 h2)),
          length_filter_cons_neg (fun e => decide (e.1 = v ∧ e.2 = v)) e rest
            (decide_eq_false (fun hc => h1 hc.1))]
        omega

/-- igraph's degree agrees with the claim's incident-edge count. -/
theorem degree_eq_incidentCount (g : Graph) (v : Nat) :
    degree g v = incidentCount g v :=
  count_split_incident g.edges v

/-! ## Claim theorems -/

set_option maxRecDepth 8000

/-- C2: the graph created at startup has exactly 50 nodes, exactly 100
edges, and node `i` carries the unique name `"Node-i"`; the hypothesis
models the Erdős–Rényi contract (the oracle ranges over the orderings of
the 1225 candidate pairs). -/
theorem create_graph_counts_and_names (sel : List (Nat × Nat))
    (lay : Graph → List Point) (i : Nat)
    (hsel : sel.Perm (allPairs 50)) (hi : i < 50) :
    (create_graph sel lay).1.n = 50 ∧
    (create_graph sel lay).1.edges.length = 100 ∧
    (create_graph sel lay).1.names.Nodup ∧
    (create_graph sel lay).1.names.getD i "" = "Node-" ++ toString i := by
  refine ⟨rfl, ?_, ?_, ?_⟩
  · have hlen : sel.length = (allPairs 50).length := hsel.length_eq
    have h50 : (allPairs 50).length = 1225 := by decide
    show (sel.take 100).length = 100
    rw [List.length_take, hlen, h50]
    omega
  · show ((List.range 50).map (fun i => "Node-" ++ toString i)).Nodup
    decide
  · show ((List.range 50).map (fun i => "Node-" ++ toString i)).getD i "" =
      "Node-" ++ toString i
    rw [getD_map_range _ _ _ hi]

/-- Witness for C2 at the identity ordering of the candidate pairs. -/
theorem create_graph_counts_and_names_witness :
    (create_graph (allPairs 50) (fun _ => [])).1.n = 50 ∧
    (create_graph (allPairs 50) (fun _ => [])).1.edges.length = 100 ∧
    (create_graph (allPairs 50) (fun _ => [])).1.names.Nodup ∧
    (create_graph (allPairs 50) (fun _ => [])).1.names.getD 7 "" =
      "Node-" ++ toString 7 :=
  create_graph_counts_and_names (allPairs 50) (fun _ => []) 7
    (List.Perm.refl _) (by decide)

/-- C5: the degree attached to vertex `v`'s marker (the `customdata` entry
of the node trace) equals the number of edges incident to `v` in the
rendered graph, self-loops counted twice. -/
theorem hover_degree_correct (g : Graph) (layout : List Point)
    (comm : List (List Nat)) (rnd : Nat → Nat) (v : Nat) (hv : v < g.n) :
    ∃ et nt, (create_network_figure g layout comm rnd).data = [et, nt] ∧
      nt.customdata.getD v 0 = incidentCount g v := by
  refine ⟨_, _, rfl, ?_⟩
  show ((List.range g.n).map (degree g)).getD v 0 = incidentCount g v
  rw [getD_map_range _ _ _ hv, degree_eq_incidentCount]

/-- Witness for C5: vertex 1 of a path graph with a self-loop has hover
degree 3. -/
theorem hover_degree_correct_witness :
    ∃ et nt,
      (create_network_figure ⟨3, [(0, 1), (1, 2), (0, 0)], ["a", "b", "c"]⟩
          [(0, 0), (1, 0), (2, 0)] [[0, 1, 2]] (fun _ => 0)).data = [et, nt] ∧
      nt.customdata.getD 1 0 =
        incidentCount ⟨3, [(0, 1), (1, 2), (0, 0)], ["a", "b", "c"]⟩ 1 :=
  hover_degree_correct ⟨3, [(0, 1), (1, 2), (0, 0)], ["a", "b", "c"]⟩
    [(0, 0), (1, 0), (2, 0)] [[0, 1, 2]] (fun _ => 0) 1 (by decide)

/-- Relabelling the induced subgraph's edges back through the vertex list
recovers exactly the original edges with both endpoints in the list. -/
theorem inducedSubgraph_edges_relabel (g : Graph) (vs : List Nat) :
    (inducedSubgraph g vs).edges.map (fun e => (vs.getD e.1 0, vs.getD e.2 0)) =
      g.edges.filter (fun e => decide (e.1 ∈ vs ∧ e.2 ∈ vs)) := by
  show ((g.edges.filter (fun e => decide (e.1 ∈ vs ∧ e.2 ∈ vs))).map
      (fun e => (vs.indexOf e.1, vs.indexOf e.2))).map
      (fun e => (vs.getD e.1 0, vs.getD e.2 0)) =
    g.edges.filter (fun e => decide (e.1 ∈ vs ∧ e.2 ∈ vs))
  rw [List.map_map]
  have h : ∀ e ∈ g.edges.filter (fun e => decide (e.1 ∈ vs ∧ e.2 ∈ vs)),
      ((fun e => (vs.getD e.1 0, vs.getD e.2 0)) ∘
        (fun e => (vs.indexOf e.1, vs.indexOf e.2))) e = id e := by
    intro e he
    have hm := List.mem_filter.mp he
    have h12 := of_decide_eq_true hm.2
    simp only [Function.comp_apply, id_eq]
    rw [getD_indexOf h12.1, getD_indexOf h12.2]
  rw [List.map_congr_left h, List.map_id]

/-- C1: on a valid click index `k`, the click handler hands the figure
builder the subgraph induced by the closed 1-hop neighborhood of `k`: the
neighborhood list contains exactly `k` and the vertices adjacent to `k`, and
the subgraph's edges, relabelled back through that list, are exactly the
original edges with both endpoints in it. -/
theorem click_valid_builds_induced_neighborhood_subgraph (s : Session) (k : Nat)
    (lay : Graph → List Point) (comm : Graph → List (List Nat)) (rnd : Nat → Nat)
    (hk : k < s.graph.n)
    (hvalid : ∀ e ∈ s.graph.edges, e.1 < s.graph.n ∧ e.2 < s.graph.n) :
    ∃ ns : List Nat,
      neighborhood s.graph k = some ns ∧
      update_subgraph_plot s (some k) lay comm rnd =
        (Except.ok (create_network_figure (inducedSubgraph s.graph ns)
          (lay (inducedSubgraph s.graph ns))
          (comm (inducedSubgraph s.graph ns)) rnd), s) ∧
      (∀ v, v ∈ ns ↔ (v = k ∨ Adj s.graph k v)) ∧
      (inducedSubgraph s.graph ns).n = ns.length ∧
      (inducedSubgraph s.graph ns).edges.map
          (fun e => (ns.getD e.1 0, ns.getD e.2 0)) =
        s.graph.edges.filter (fun e => decide (e.1 ∈ ns ∧ e.2 ∈ ns)) := by
  refine ⟨k :: (List.range s.graph.n).filter
      (fun w => decide (w ≠ k ∧ Adj s.graph k w)), ?_, ?_, ?_, rfl, ?_⟩
  · unfold neighborhood
    rw [if_pos hk]
  · have hns : neighborhood s.graph k = some (k :: (List.range s.graph.n).filter
        (fun w => decide (w ≠ k ∧ Adj s.graph k w))) := by
      unfold neighborhood
      rw [if_pos hk]
    simp [update_subgraph_plot, hns]
  · intro v
    simp only [List.mem_cons, List.mem_filter, List.mem_range, decide_eq_true_eq]
    constructor
    · rintro (rfl | ⟨hv, hne, hadj⟩)
      · exact Or.inl rfl
      · exact Or.inr hadj
    · rintro (rfl | hadj)
      · exact Or.inl rfl
      · by_cases hv : v = k
        · exact Or.inl hv
        · refine Or.inr ⟨?_, hv, hadj⟩
          cases hadj with
          | inl h => exact (hvalid _ h).2
          | inr h => exact (hvalid _ h).1
  · exact inducedSubgraph_edges_relabel s.graph _

/-- Witness for C1 on the spec's example scenario: nodes `{0,1,2,3}`, edges
`{(0,1),(1,2)}`, click on node 1. -/
theorem click_valid_builds_induced_neighborhood_subgraph_witness :
    ∃ ns : List Nat,
      neighborhood ⟨4, [(0, 1), (1, 2)], ["Node-0", "Node-1", "Node-2", "Node-3"]⟩ 1 =
        some ns ∧
      update_subgraph_plot
          ⟨⟨4, [(0, 1), (1, 2)], ["Node-0", "Node-1", "Node-2", "Node-3"]⟩,
            [(0, 0), (1, 0), (2, 0), (3, 0)]⟩ (some 1)
          (fun _ => []) (fun _ => []) (fun _ => 0) =
        (Except.ok (create_network_figure
          (inducedSubgraph
            ⟨4, [(0, 1), (1, 2)], ["Node-0", "Node-1", "Node-2", "Node-3"]⟩ ns)
          ((fun _ => []) (inducedSubgraph
            ⟨4, [(0, 1), (1, 2)], ["Node-0", "Node-1", "Node-2", "Node-3"]⟩ ns))
          ((fun _ => []) (inducedSubgraph
            ⟨4, [(0, 1), (1, 2)], ["Node-0", "Node-1", "Node-2", "Node-3"]⟩ ns))
          (fun _ => 0)),
          ⟨⟨4, [(0, 1), (1, 2)], ["Node-0", "Node-1", "Node-2", "Node-3"]⟩,
            [(0, 0), (1, 0), (2, 0), (3, 0)]⟩) ∧
      (∀ v, v ∈ ns ↔ (v = 1 ∨
        Adj ⟨4, [(0, 1), (1, 2)], ["Node-0", "Node-1", "Node-2", "Node-3"]⟩ 1 v)) ∧
      (inducedSubgraph
        ⟨4, [(0, 1), (1, 2)], ["Node-0", "Node-1", "Node-2", "Node-3"]⟩ ns).n =
          ns.length ∧
      (inducedSubgraph
          ⟨4, [(0, 1), (1, 2)], ["Node-0", "Node-1", "Node-2", "Node-3"]⟩ ns).edges.map
          (fun e => (ns.getD e.1 0, ns.getD e.2 0)) =
        ([(0, 1), (1, 2)] : List (Nat × Nat)).filter
          (fun e => decide (e.1 ∈ ns ∧ e.2 ∈ ns)) :=
  click_valid_builds_induced_neighborhood_subgraph
    ⟨⟨4, [(0, 1), (1, 2)], ["Node-0", "Node-1", "Node-2", "Node-3"]⟩,
      [(0, 0), (1, 0), (2, 0), (3, 0)]⟩ 1
    (fun _ => []) (fun _ => []) (fun _ => 0) (by decide) (by decide)

/-- Evaluating the inner color-assignment loop: a vertex gets the
community's color exactly when it is a member, else the previous binding. -/
theorem assignAll_eval (c : String) (nodes : List Nat)
    (acc : Nat → Option String) (v : Nat) :
    assignAll c nodes acc v = if v ∈ nodes then some c else acc v := by
  induction nodes generalizing acc with
  | nil => simp [assignAll]
  | cons nd rest ih =>
      rw [assignAll, ih]
      by_cases hmem : v ∈ rest
      · simp [hmem]
      · by_cases hn : v = nd
        · simp [hmem, hn]
        · simp [hmem, hn]

/-- A vertex in no community keeps its previous binding through the outer
color-assignment loop. -/
theorem communityColorsFrom_not_mem (rnd : Nat → Nat) (idx : Nat)
    (comm : List (List Nat)) (acc : Nat → Option String) (v : Nat)
    (h : ∀ c ∈ comm, v ∉ c) :
    communityColorsFrom rnd idx comm acc v = acc v := by
  induction comm generalizing idx acc with
  | nil => rfl
  | cons nodes rest ih =>
      rw [communityColorsFrom,
        ih _ _ (fun c hc => h c (List.mem_cons_of_mem _ hc)), assignAll_eval]
      simp [h nodes (List.mem_cons_self _ _)]

/-- A vertex lying in exactly the community at position `j` ends bound to
that community's color (the `idx`-th community of the loop draws the color
at stream position `idx`). -/
theorem communityColorsFrom_mem (rnd : Nat → Nat) (comm : List (List Nat)) :
    ∀ (acc : Nat → Option String) (v j idx : Nat) (hj : j < comm.length),
      v ∈ comm.get ⟨j, hj⟩ →
      (∀ j', ∀ h' : j' < comm.length, v ∈ comm.get ⟨j', h'⟩ → j' = j) →
      communityColorsFrom rnd idx comm acc v = some (randColor rnd (idx + j)) := by
  induction comm with
  | nil =>
      intro acc v j idx hj
      exact absurd hj (Nat.not_lt_zero _)
  | cons nodes rest ih =>
      intro acc v j idx hj hmem huniq
      cases j with
      | zero =>
          have hrest : ∀ c ∈ rest, v ∉ c := by
            intro c hc hvc
            obtain ⟨m, hm⟩ := List.mem_iff_get.mp hc
            have : m.1 + 1 = 0 := by
              refine huniq (m.1 + 1) (by simp) ?_
              show v ∈ rest.get m
              rw [hm]
              exact hvc
            omega
          rw [communityColorsFrom, communityColorsFrom_not_mem _ _ _ _ _ hrest,
            assignAll_eval]
          have hv : v ∈ nodes := hmem
          simp [hv]
      | succ j' =>
          have hj' : j' < rest.length := Nat.lt_of_succ_lt_succ (by simpa using hj)
          have hmem' : v ∈ rest.get ⟨j', hj'⟩ := hmem
          have huniq' : ∀ j'', ∀ h'' : j'' < rest.length,
              v ∈ rest.get ⟨j'', h''⟩ → j'' = j' := by
            intro j'' h'' hv
            have : j'' + 1 = j' + 1 := by
              refine huniq (j'' + 1) (by simpa using Nat.succ_lt_succ h'') ?_
              exact hv
            omega
          rw [communityColorsFrom, ih _ v j' (idx + 1) hj' hmem' huniq']
          have harith : idx + 1 + j' = idx + (j' + 1) := by omega
          rw [harith]

/-- A hex byte renders as exactly two characters. -/
theorem hex2_length (n : Nat) : (hex2 n).length = 2 := rfl

/-- Every color the figure builder draws is a 7-character string: `#`
followed by six hex digits. -/
theorem randColor_length (rnd : Nat → Nat) (idx : Nat) :
    (randColor rnd idx).length = 7 := by
  unfold randColor hexColor
  rw [String.length_append, String.length_append, String.length_append,
    hex2_length, hex2_length, hex2_length]
  rfl

/-- C4: within one figure build, the community-to-color assignment is total
and uniform — under the community-detection contract (every rendered vertex
in exactly one community), every vertex's marker gets exactly one color, a
`#`-prefixed 6-hex-digit string, and vertices of one community get the
identical string (the one random draw of that community). -/
theorem community_colors_total_and_uniform (g : Graph) (layout : List Point)
    (comm : List (List Nat)) (rnd : Nat → Nat)
    (hpart : IsPartitionOn comm g.n) (v : Nat) (hv : v < g.n) :
    ∃ et nt, (create_network_figure g layout comm rnd).data = [et, nt] ∧
      ∃ c : String, nt.markerColor.getD v none = some c ∧ c.length = 7 ∧
        ∀ u, u < g.n → SameCommunity comm u v →
          nt.markerColor.getD u none = some c := by
  refine ⟨_, _, rfl, ?_⟩
  obtain ⟨j, hj, hmem, huniq⟩ := hpart v hv
  refine ⟨randColor rnd j, ?_, randColor_length rnd j, ?_⟩
  · show ((List.range g.n).map (communityColors rnd comm)).getD v none =
      some (randColor rnd j)
    rw [getD_map_range _ _ _ hv]
    unfold communityColors
    rw [communityColorsFrom_mem rnd comm _ v j 0 hj hmem huniq]
    rw [Nat.zero_add]
  · intro u hu hsame
    obtain ⟨j2, hj2, hu2, hv2⟩ := hsame
    have hj2j : j2 = j := huniq j2 hj2 hv2
    subst hj2j
    obtain ⟨ju, hju, humem, huuniq⟩ := hpart u hu
    have hjju : j2 = ju := huuniq j2 hj2 hu2
    show ((List.range g.n).map (communityColors rnd comm)).getD u none =
      some (randColor rnd j2)
    rw [getD_map_range _ _ _ hu]
    unfold communityColors
    rw [communityColorsFrom_mem rnd comm _ u ju 0 hju humem huuniq]
    rw [Nat.zero_add, hjju]

/-- Witness for C4: a 3-vertex graph with communities `{0,1}` and `{2}`. -/
theorem community_colors_total_and_uniform_witness :
    ∃ et nt,
      (create_network_figure ⟨3, [(0, 1)], ["a", "b", "c"]⟩
          [(0, 0), (1, 0), (2, 0)] [[0, 1], [2]] (fun _ => 0)).data = [et, nt] ∧
      ∃ c : String, nt.markerColor.getD 0 none = some c ∧ c.length = 7 ∧
        ∀ u, u < (3 : Nat) → SameCommunity [[0, 1], [2]] u 0 →
          nt.markerColor.getD u none = some c :=
  community_colors_total_and_uniform ⟨3, [(0, 1)], ["a", "b", "c"]⟩
    [(0, 0), (1, 0), (2, 0)] [[0, 1], [2]] (fun _ => 0)
    (by
      intro v hv
      interval_cases v
      · exact ⟨0, by decide, by decide, by decide⟩
      · exact ⟨0, by decide, by decide, by decide⟩
      · exact ⟨1, by decide, by decide, by decide⟩)
    0 (by decide)

/-- `getD` through `map`, for an in-range index. -/
theorem getD_map {α β : Type} (f : α → β) (l : List α) (i : Nat)
    (hi : i < l.length) (d : β) (d0 : α) :
    (l.map f).getD i d = f (l.getD i d0) := by
  rw [List.getD_eq_getElem?_getD, List.getElem?_map, List.getElem?_eq_getElem hi,
    List.getD_eq_getElem?_getD, List.getElem?_eq_getElem hi]
  rfl

/-- A list built of three-element blocks has length three times the block
count. -/
theorem flatMap_triple_length {α β : Type} (l : List α) (f g : α → β) (c : β) :
    (l.flatMap (fun e => [f e, g e, c])).length = 3 * l.length := by
  induction l with
  | nil => rfl
  | cons e rest ih =>
      rw [List.flatMap_cons, List.length_append, ih, List.length_cons]
      show 3 + 3 * rest.length = 3 * (rest.length + 1)
      omega

/-- Within a list built of three-element blocks, the block of element `i`
sits exactly at positions `3i`, `3i+1`, `3i+2`. -/
theorem flatMap_triple_getElem {α β : Type} (l : List α) (f g : α → β) (c : β)
    (d : α) :
    ∀ i, i < l.length →
      (l.flatMap (fun e => [f e, g e, c]))[3 * i]? = some (f (l.getD i d)) ∧
      (l.flatMap (fun e => [f e, g e, c]))[3 * i + 1]? = some (g (l.getD i d)) ∧
      (l.flatMap (fun e => [f e, g e, c]))[3 * i + 2]? = some c := by
  induction l with
  | nil =>
      intro i hi
      exact absurd hi (Nat.not_lt_zero _)
  | cons e rest ih =>
      intro i hi
      cases i with
      | zero =>
          rw [List.flatMap_cons]
          simp
      | succ j =>
          have hj : j < rest.length := Nat.lt_of_succ_lt_succ hi
          obtain ⟨h1, h2, h3⟩ := ih j hj
          rw [List.flatMap_cons]
          have hl : ([f e, g e, c] : List β).length = 3 := rfl
          refine ⟨?_, ?_, ?_⟩
          · rw [List.getElem?_append_right (by rw [hl]; omega), hl]
            have harith : 3 * (j + 1) - 3 = 3 * j := by omega
            rw [harith, List.getD_cons_succ]
            exact h1
          · rw [List.getElem?_append_right (by rw [hl]; omega), hl]
            have harith : 3 * (j + 1) + 1 - 3 = 3 * j + 1 := by omega
            rw [harith, List.getD_cons_succ]
            exact h2
          · rw [List.getElem?_append_right (by rw [hl]; omega), hl]
            have harith : 3 * (j + 1) + 2 - 3 = 3 * j + 2 := by omega
            rw [harith]
            exact h3

/-- C6: in the built figure, edge `i` contributes the 2-point segment from
`layout[u]` to `layout[v]` followed by a `none` separator at positions
`3i, 3i+1, 3i+2` of the edge trace, whose `x` and `y` lists have length
exactly three times the edge count — so no segment joins endpoints of two
different edges. -/
theorem edge_trace_is_separated_segments (g : Graph) (layout : List Point)
    (comm : List (List Nat)) (rnd : Nat → Nat) (i : Nat)
    (hi : i < g.edges.length) :
    ∃ et nt, (create_network_figure g layout comm rnd).data = [et, nt] ∧
      et.x.length = 3 * g.edges.length ∧
      et.y.length = 3 * g.edges.length ∧
      et.x[3 * i]? = some (some (layout.getD (g.edges.getD i (0, 0)).1 (0, 0)).1) ∧
      et.x[3 * i + 1]? = some (some (layout.getD (g.edges.getD i (0, 0)).2 (0, 0)).1) ∧
      et.x[3 * i + 2]? = some none ∧
      et.y[3 * i]? = some (some (layout.getD (g.edges.getD i (0, 0)).1 (0, 0)).2) ∧
      et.y[3 * i + 1]? = some (some (layout.getD (g.edges.getD i (0, 0)).2 (0, 0)).2) ∧
      et.y[3 * i + 2]? = some none := by
  obtain ⟨hx1, hx2, hx3⟩ := flatMap_triple_getElem g.edges
    (fun e => some (layout.getD e.1 (0, 0)).1)
    (fun e => some (layout.getD e.2 (0, 0)).1) none (0, 0) i hi
  obtain ⟨hy1, hy2, hy3⟩ := flatMap_triple_getElem g.edges
    (fun e => some (layout.getD e.1 (0, 0)).2)
    (fun e => some (layout.getD e.2 (0, 0)).2) none (0, 0) i hi
  exact ⟨_, _, rfl,
    flatMap_triple_length g.edges _ _ none,
    flatMap_triple_length g.edges _ _ none,
    hx1, hx2, hx3, hy1, hy2, hy3⟩

/-- Witness for C6 on a two-vertex, one-edge graph at edge 0. -/
theorem edge_trace_is_separated_segments_witness :
    ∃ et nt,
      (create_network_figure ⟨2, [(0, 1)], ["a", "b"]⟩ [(1, 2), (3, 4)]
          [[0, 1]] (fun _ => 0)).data = [et, nt] ∧
      et.x.length = 3 * ([(0, 1)] : List (Nat × Nat)).length ∧
      et.y.length = 3 * ([(0, 1)] : List (Nat × Nat)).length ∧
      et.x[3 * 0]? = some (some ((([(1, 2), (3, 4)] : List Point).getD
        ((([(0, 1)] : List (Nat × Nat)).getD 0 (0, 0)).1) (0, 0)).1)) ∧
      et.x[3 * 0 + 1]? = some (some ((([(1, 2), (3, 4)] : List Point).getD
        ((([(0, 1)] : List (Nat × Nat)).getD 0 (0, 0)).2) (0, 0)).1)) ∧
      et.x[3 * 0 + 2]? = some none ∧
      et.y[3 * 0]? = some (some ((([(1, 2), (3, 4)] : List Point).getD
        ((([(0, 1)] : List (Nat × Nat)).getD 0 (0, 0)).1) (0, 0)).2)) ∧
      et.y[3 * 0 + 1]? = some (some ((([(1, 2), (3, 4)] : List Point).getD
        ((([(0, 1)] : List (Nat × Nat)).getD 0 (0, 0)).2) (0, 0)).2)) ∧
      et.y[3 * 0 + 2]? = some none :=
  edge_trace_is_separated_segments ⟨2, [(0, 1)], ["a", "b"]⟩ [(1, 2), (3, 4)]
    [[0, 1]] (fun _ => 0) 0 (by decide)

/-- C9: full-graph rendering is not color-idempotent — there are a session,
a community structure and two states of the random source under which two
successive full-graph render calls give the same node different marker
colors. -/
theorem full_render_colors_not_stable :
    ∃ (s : Session) (comm : List (List Nat)) (rnd1 rnd2 : Nat → Nat) (v : Nat)
      (et1 nt1 et2 nt2 : Trace),
      (update_original_network_plot s none comm rnd1).1.data = [et1, nt1] ∧
      (update_original_network_plot s none comm rnd2).1.data = [et2, nt2] ∧
      nt1.markerColor.getD v none ≠ nt2.markerColor.getD v none := by
  refine ⟨⟨⟨1, [], ["Node-0"]⟩, [(0, 0)]⟩, [[0]], (fun _ => 0), (fun _ => 255), 0,
    _, _, _, _, rfl, rfl, ?_⟩
  decide

/-- C10: every built figure's data list is exactly the edge trace then the
node trace, and the node trace's position, label, color and degree arrays
are indexed in vertex order — entry `i` carries vertex `i`'s coordinates,
name, community color and degree, so a renderer point index equals the
vertex index in the rendered graph. -/
theorem figure_data_order_and_vertex_indexing (g : Graph) (layout : List Point)
    (comm : List (List Nat)) (rnd : Nat → Nat) (i : Nat)
    (hlay : layout.length = g.n) (hi : i < g.n) :
    ∃ et nt, (create_network_figure g layout comm rnd).data = [et, nt] ∧
      et.mode = "lines" ∧ nt.mode = "markers+text" ∧
      nt.x.getD i none = some (layout.getD i (0, 0)).1 ∧
      nt.y.getD i none = some (layout.getD i (0, 0)).2 ∧
      nt.text = g.names ∧
      nt.markerColor.getD i none = communityColors rnd comm i ∧
      nt.customdata.getD i 0 = degree g i := by
  have hilay : i < layout.length := by omega
  refine ⟨_, _, rfl, rfl, rfl, ?_, ?_, rfl, ?_, ?_⟩
  · show ((layout.map (fun p => p.1)).map some).getD i none =
      some (layout.getD i (0, 0)).1
    rw [getD_map some (layout.map (fun p => p.1)) i (by simpa using hilay) none 0,
      getD_map (fun p : Point => p.1) layout i hilay 0 (0, 0)]
  · show ((layout.map (fun p => p.2)).map some).getD i none =
      some (layout.getD i (0, 0)).2
    rw [getD_map some (layout.map (fun p => p.2)) i (by simpa using hilay) none 0,
      getD_map (fun p : Point => p.2) layout i hilay 0 (0, 0)]
  · show ((List.range g.n).map (communityColors rnd comm)).getD i none =
      communityColors rnd comm i
    rw [getD_map_range _ _ _ hi]
  · show ((List.range g.n).map (degree g)).getD i 0 = degree g i
    rw [getD_map_range _ _ _ hi]

/-- Witness for C10 on a two-vertex, one-edge graph at vertex 1. -/
theorem figure_data_order_and_vertex_indexing_witness :
    ∃ et nt,
      (create_network_figure ⟨2, [(0, 1)], ["a", "b"]⟩ [(1, 2), (3, 4)]
          [[0, 1]] (fun _ => 0)).data = [et, nt] ∧
      et.mode = "lines" ∧ nt.mode = "markers+text" ∧
      nt.x.getD 1 none = some (([(1, 2), (3, 4)] : List Point).getD 1 (0, 0)).1 ∧
      nt.y.getD 1 none = some (([(1, 2), (3, 4)] : List Point).getD 1 (0, 0)).2 ∧
      nt.text = (⟨2, [(0, 1)], ["a", "b"]⟩ : Graph).names ∧
      nt.markerColor.getD 1 none = communityColors (fun _ => 0) [[0, 1]] 1 ∧
      nt.customdata.getD 1 0 = degree ⟨2, [(0, 1)], ["a", "b"]⟩ 1 :=
  figure_data_order_and_vertex_indexing ⟨2, [(0, 1)], ["a", "b"]⟩ [(1, 2), (3, 4)]
    [[0, 1]] (fun _ => 0) 1 (by decide) (by decide)
